import Mathlib

/-! Design-principle demos: message processing (SRP) and notification dispatch (OCP).

A shallow embedding of the four C++ demo programs

* `solid_design_principle/01-SingleResponsibility/before.cpp`
* `solid_design_principle/01-SingleResponsibility/after.cpp`
* `solid_design_principle/02-OpenClosed/before.cpp`
* `solid_design_principle/02-OpenClosed/after.cpp`

Modelling conventions.

* `std::string` is a Lean `String`; `a + b` and `<<`-chaining are `++`.
* Standard output is the list of lines written: every statement
  `std::cout << x << y << std::endl;` contributes the one entry `x ++ y`
  (the terminator is not part of the entry).
* A member function that prints or mutates returns an `Outcome`: the value
  returned, the lines written by the call, and the object after the call.
* `std::vector<std::string>` is a `List String`; `push_back` appends at the end.
-/

namespace DesignPatterns

universe u

/-- Lines written to standard output, oldest first. -/
abbrev Output := List String

/-- What a member-function call leaves behind: its return value, the lines it
wrote and the receiver object afterwards. -/
structure Outcome (σ : Type u) (α : Type) where
  ret : α
  out : Output
  post : σ

namespace CxxString

/-- Model of `std::string::empty()`: the string has no characters. -/
def empty (s : String) : Bool := s.length == 0

end CxxString

/-! ## Single Responsibility, refactored variant (`after.cpp`) -/

namespace SRP.After

/-- Model of `class Logger` (no data members). -/
structure Logger where
deriving DecidableEq

/-- Model of `Logger::log`: one line `LOG: <message>`. -/
def Logger.log (_ : Logger) (message : String) : Output :=
  ["LOG: " ++ message]

/-- Model of `class Validator` (no data members). -/
structure Validator where
deriving DecidableEq

/-- Model of `Validator::isValid`: `!message.empty() && !sender.empty()`. -/
def Validator.isValid (_ : Validator) (message sender : String) : Bool :=
  !CxxString.empty message && !CxxString.empty sender

/-- Model of `class Database`: the private vector `data`, empty on construction. -/
structure Database where
  data : List String := []
deriving DecidableEq

/-- Model of `Database::store`: `data.push_back(item)`. -/
def Database.store (db : Database) (item : String) : Database :=
  { db with data := db.data ++ [item] }

/-- Model of `Database::getAll`: a copy of `data`. -/
def Database.getAll (db : Database) : List String :=
  db.data

/-- Model of `class Display` (no data members). -/
structure Display where
deriving DecidableEq

/-- Model of `Display::showMessage`: one line `DISPLAY: <message>`. -/
def Display.showMessage (_ : Display) (message : String) : Output :=
  ["DISPLAY: " ++ message]

/-- Model of `Display::showSuccess`. -/
def Display.showSuccess (_ : Display) : Output :=
  ["SUCCESS: Message processed!"]

/-- Model of `Display::showError`. -/
def Display.showError (_ : Display) : Output :=
  ["ERROR: Invalid input!"]

/-- Model of `Display::showAll`: the range-for loop printing `- <item>` for
every item, front to back. -/
def Display.showAll (d : Display) : List String → Output
  | [] => []
  | item :: items => ("- " ++ item) :: d.showAll items

/-- Model of the orchestrating `class MessageProcessor` with its four members,
all default-constructed. -/
structure MessageProcessor where
  logger : Logger := {}
  validator : Validator := {}
  database : Database := {}
  display : Display := {}
deriving DecidableEq

/-- Model of `MessageProcessor::processMessage` of `after.cpp`. -/
def MessageProcessor.processMessage (p : MessageProcessor) (message sender : String) :
    Outcome MessageProcessor Bool :=
  let o1 := p.logger.log ("Processing message from " ++ sender)
  if !p.validator.isValid message sender then
    let o2 := p.logger.log "Validation failed"
    let o3 := p.display.showError
    { ret := false, out := o1 ++ o2 ++ o3, post := p }
  else
    let database := p.database.store (message ++ " from " ++ sender)
    let o2 := p.logger.log "Stored in database"
    let o3 := p.display.showMessage message
    let o4 := p.display.showSuccess
    let o5 := p.logger.log "Processing complete"
    { ret := true, out := o1 ++ o2 ++ o3 ++ o4 ++ o5,
      post := { p with database := database } }

/-- Model of `MessageProcessor::showAll` of `after.cpp`. -/
def MessageProcessor.showAll (p : MessageProcessor) : Outcome MessageProcessor Unit :=
  let o1 := p.logger.log "Showing all messages"
  let o2 := p.display.showAll p.database.getAll
  { ret := (), out := o1 ++ o2, post := p }

/-- The stored sequence of a processor: what `database.getAll()` returns. -/
def MessageProcessor.stored (p : MessageProcessor) : List String :=
  p.database.getAll

/-- One call made by a client of a message processor. -/
inductive Call where
  | processMessage (message sender : String)
  | showAll
deriving DecidableEq

/-- What a client observes of one call: the boolean returned (`none` for the
`void` member `showAll`) and the lines written. -/
structure Observation where
  ret : Option Bool
  out : Output
deriving DecidableEq

/-- The stored record built by `message + " from " + sender`. -/
def record (message sender : String) : String :=
  message ++ " from " ++ sender

/-- Performs one client call on an `after.cpp` processor. -/
def MessageProcessor.step (p : MessageProcessor) : Call → Observation × MessageProcessor
  | .processMessage message sender =>
    let r := p.processMessage message sender
    ({ ret := some r.ret, out := r.out }, r.post)
  | .showAll =>
    let r := p.showAll
    ({ ret := none, out := r.out }, r.post)

/-- Performs a sequence of client calls, first to last, on an `after.cpp`
processor; returns the transcript and the processor afterwards. -/
def MessageProcessor.run (p : MessageProcessor) : List Call → List Observation × MessageProcessor
  | [] => ([], p)
  | c :: cs =>
    let r := p.step c
    let rs := r.2.run cs
    (r.1 :: rs.1, rs.2)

/-- Number of calls of a transcript that returned `true`. -/
def successCount (t : List Observation) : Nat :=
  t.countP fun o => o.ret == some true

/-- Records of the `processMessage` calls that returned `true` according to the
transcript, in call order. -/
def successRecords : List Call → List Observation → List String
  | .processMessage message sender :: cs, o :: os =>
    if o.ret = some true then record message sender :: successRecords cs os
    else successRecords cs os
  | .showAll :: cs, _ :: os => successRecords cs os
  | _, _ => []

end SRP.After

/-! ## Single Responsibility, god-class variant (`before.cpp`) -/

namespace SRP.Before

open SRP.After (Call Observation)

/-- Model of the god-class `MessageProcessor`: the private vector `database`,
empty on construction. -/
structure MessageProcessor where
  database : List String := []
deriving DecidableEq

/-- Model of `MessageProcessor::processMessage` of `before.cpp`. -/
def MessageProcessor.processMessage (p : MessageProcessor) (message sender : String) :
    Outcome MessageProcessor Bool :=
  let o1 : Output := ["LOG: Processing message from " ++ sender]
  if CxxString.empty message || CxxString.empty sender then
    let o2 : Output := ["LOG: Validation failed"]
    let o3 : Output := ["ERROR: Invalid input!"]
    { ret := false, out := o1 ++ o2 ++ o3, post := p }
  else
    let database := p.database ++ [message ++ " from " ++ sender]
    let o2 : Output := ["LOG: Stored in database"]
    let o3 : Output := ["DISPLAY: " ++ message]
    let o4 : Output := ["SUCCESS: Message processed!"]
    let o5 : Output := ["LOG: Processing complete"]
    { ret := true, out := o1 ++ o2 ++ o3 ++ o4 ++ o5,
      post := { p with database := database } }

/-- The range-for loop of `showAll` of `before.cpp`: `- <msg>` for every
stored message, front to back. -/
def MessageProcessor.showAllLoop : List String → Output
  | [] => []
  | msg :: msgs => ("- " ++ msg) :: showAllLoop msgs

/-- Model of `MessageProcessor::showAll` of `before.cpp`. -/
def MessageProcessor.showAll (p : MessageProcessor) : Outcome MessageProcessor Unit :=
  let o1 : Output := ["LOG: Showing all messages"]
  let o2 := MessageProcessor.showAllLoop p.database
  { ret := (), out := o1 ++ o2, post := p }

/-- Performs one client call on a `before.cpp` processor. -/
def MessageProcessor.step (p : MessageProcessor) : Call → Observation × MessageProcessor
  | .processMessage message sender =>
    let r := p.processMessage message sender
    ({ ret := some r.ret, out := r.out }, r.post)
  | .showAll =>
    let r := p.showAll
    ({ ret := none, out := r.out }, r.post)

/-- Performs a sequence of client calls, first to last, on a `before.cpp`
processor; returns the transcript and the processor afterwards. -/
def MessageProcessor.run (p : MessageProcessor) : List Call → List Observation × MessageProcessor
  | [] => ([], p)
  | c :: cs =>
    let r := p.step c
    let rs := r.2.run cs
    (r.1 :: rs.1, rs.2)

end SRP.Before

/-! ## Open/Closed, polymorphic variant (`after.cpp`) -/

namespace OCP.After

/-- Model of the abstract class `INotificationChannel`. An implementation is
an object of some class: its own data members (`State`, `self`) together with
its overrides of the two pure virtual members. `send` is non-const, so an
override may write any lines and may change the object it is called on. -/
structure INotificationChannel where
  State : Type
  self : State
  vsend : State → String → Output × State
  vgetType : State → String

/-- Virtual call `channel->send(message)`. -/
def INotificationChannel.send (c : INotificationChannel) (message : String) :
    Outcome INotificationChannel Unit :=
  let r := c.vsend c.self message
  { ret := (), out := r.1, post := { c with self := r.2 } }

/-- Model of `class EmailChannel` (no data members). -/
def EmailChannel : INotificationChannel where
  State := Unit
  self := ()
  vsend := fun _ message => (["Email: " ++ message], ())
  vgetType := fun _ => "Email"

/-- Model of `class SMSChannel` (no data members). -/
def SMSChannel : INotificationChannel where
  State := Unit
  self := ()
  vsend := fun _ message => (["SMS: " ++ message], ())
  vgetType := fun _ => "SMS"

/-- Model of `class VoiceChannel` (no data members). -/
def VoiceChannel : INotificationChannel where
  State := Unit
  self := ()
  vsend := fun _ message => (["Voice: " ++ message], ())
  vgetType := fun _ => "Voice"

/-- Model of `class NotificationManager` of `after.cpp`: the private vector
`channels` of owned channel objects, empty on construction. -/
structure NotificationManager where
  channels : List INotificationChannel := []

/-- Model of `NotificationManager::addChannel`: `channels.push_back(std::move(channel))`. -/
def NotificationManager.addChannel (m : NotificationManager) (channel : INotificationChannel) :
    NotificationManager :=
  { m with channels := m.channels ++ [channel] }

/-- The range-for loop of `notifyAll`: `channel->send(message)` for every
channel, front to back; returns the lines written and the channels afterwards. -/
def NotificationManager.notifyLoop (message : String) :
    List INotificationChannel → Output × List INotificationChannel
  | [] => ([], [])
  | channel :: rest =>
    let r := channel.send message
    let rs := notifyLoop message rest
    (r.out ++ rs.1, r.post :: rs.2)

/-- Model of `NotificationManager::notifyAll`. -/
def NotificationManager.notifyAll (m : NotificationManager) (message : String) :
    Outcome NotificationManager Unit :=
  let r := NotificationManager.notifyLoop message m.channels
  { ret := (), out := r.1, post := { m with channels := r.2 } }

/-- Registers the given channels, first to last, by successive `addChannel` calls. -/
def NotificationManager.addChannels (m : NotificationManager) :
    List INotificationChannel → NotificationManager
  | [] => m
  | c :: cs => (m.addChannel c).addChannels cs

end OCP.After

/-! ## Open/Closed, branching variant (`before.cpp`) -/

namespace OCP.Before

/-- Model of `class NotificationManager` of `before.cpp` (no data members). -/
structure NotificationManager where
deriving DecidableEq

/-- Model of `NotificationManager::notify` of `before.cpp`. -/
def NotificationManager.notify (_ : NotificationManager) (message channel : String) : Output :=
  if channel == "email" then
    ["Email: " ++ message]
  else if channel == "sms" then
    ["SMS: " ++ message]
  else if channel == "voice" then
    ["Voice: " ++ message]
  else
    ["Unknown channel: " ++ channel]

end OCP.Before

/-! ## Helper lemmas -/

theorem CxxString.empty_eq_true_iff (s : String) : CxxString.empty s = true ↔ s = "" := by
  unfold CxxString.empty
  constructor
  · intro h
    obtain ⟨l⟩ := s
    have h0 : l.length = 0 := beq_iff_eq.mp h
    exact String.ext (List.length_eq_zero.mp h0)
  · rintro rfl
    rfl

theorem CxxString.empty_eq_false_iff (s : String) : CxxString.empty s = false ↔ s ≠ "" := by
  rw [← Bool.not_eq_true, CxxString.empty_eq_true_iff]

theorem CxxString.log_processing (sender : String) :
    "LOG: " ++ ("Processing message from " ++ sender) =
      "LOG: Processing message from " ++ sender := by
  rw [← String.append_assoc]
  rfl

namespace SRP.After

theorem Validator.isValid_eq_true_iff (v : Validator) (message sender : String) :
    v.isValid message sender = true ↔ message ≠ "" ∧ sender ≠ "" := by
  unfold Validator.isValid
  rw [Bool.and_eq_true, Bool.not_eq_true', Bool.not_eq_true',
    CxxString.empty_eq_false_iff, CxxString.empty_eq_false_iff]

theorem Validator.isValid_eq_false_iff (v : Validator) (message sender : String) :
    v.isValid message sender = false ↔ message = "" ∨ sender = "" := by
  rw [← Bool.not_eq_true, Validator.isValid_eq_true_iff]
  tauto

theorem MessageProcessor.processMessage_valid (p : MessageProcessor) (message sender : String)
    (h : p.validator.isValid message sender = true) :
    p.processMessage message sender =
      { ret := true,
        out := ["LOG: Processing message from " ++ sender, "LOG: Stored in database",
                "DISPLAY: " ++ message, "SUCCESS: Message processed!",
                "LOG: Processing complete"],
        post := { p with database := p.database.store (message ++ " from " ++ sender) } } := by
  simp [MessageProcessor.processMessage, h, Logger.log, Display.showMessage,
    Display.showSuccess, CxxString.log_processing]

theorem MessageProcessor.processMessage_invalid (p : MessageProcessor) (message sender : String)
    (h : p.validator.isValid message sender = false) :
    p.processMessage message sender =
      { ret := false,
        out := ["LOG: Processing message from " ++ sender, "LOG: Validation failed",
                "ERROR: Invalid input!"],
        post := p } := by
  simp [MessageProcessor.processMessage, h, Logger.log, Display.showError,
    CxxString.log_processing]

theorem MessageProcessor.processMessage_of_nonempty (p : MessageProcessor)
    (message sender : String) (hm : message ≠ "") (hs : sender ≠ "") :
    p.processMessage message sender =
      { ret := true,
        out := ["LOG: Processing message from " ++ sender, "LOG: Stored in database",
                "DISPLAY: " ++ message, "SUCCESS: Message processed!",
                "LOG: Processing complete"],
        post := { p with database := p.database.store (message ++ " from " ++ sender) } } :=
  p.processMessage_valid message sender
    ((p.validator.isValid_eq_true_iff message sender).mpr ⟨hm, hs⟩)

theorem MessageProcessor.processMessage_of_empty (p : MessageProcessor)
    (message sender : String) (h : message = "" ∨ sender = "") :
    p.processMessage message sender =
      { ret := false,
        out := ["LOG: Processing message from " ++ sender, "LOG: Validation failed",
                "ERROR: Invalid input!"],
        post := p } :=
  p.processMessage_invalid message sender
    ((p.validator.isValid_eq_false_iff message sender).mpr h)

/-! ## Message processing, refactored variant: contracts -/

/-- C1: for every processor state and every non-empty content and non-empty
sender, `processMessage` returns `true` and the stored sequence afterwards is
the stored sequence before with the single record `content ++ " from " ++ sender`
appended at the end. -/
theorem processMessage_success_appends (p : MessageProcessor) (message sender : String)
    (hm : message ≠ "") (hs : sender ≠ "") :
    (p.processMessage message sender).ret = true ∧
    (p.processMessage message sender).post.stored =
      p.stored ++ [message ++ " from " ++ sender] := by
  rw [p.processMessage_of_nonempty message sender hm hs]
  exact ⟨rfl, rfl⟩

theorem processMessage_success_appends_witness :
    (({ database := { data := ["Hi there! from Agent0"] } } : MessageProcessor).processMessage
        "Hello World!" "Agent1").ret = true ∧
    (({ database := { data := ["Hi there! from Agent0"] } } : MessageProcessor).processMessage
        "Hello World!" "Agent1").post.stored =
      ["Hi there! from Agent0", "Hello World! from Agent1"] :=
  processMessage_success_appends { database := { data := ["Hi there! from Agent0"] } }
    "Hello World!" "Agent1" (by decide) (by decide)

/-- C2: for every processor state and every pair with an empty content or an
empty sender, `processMessage` returns the boolean `false` (the call is a total
function, no exceptional outcome exists) and the processor, hence the stored
sequence, is exactly as it was before the call. -/
theorem processMessage_failure_keeps (p : MessageProcessor) (message sender : String)
    (h : message = "" ∨ sender = "") :
    (p.processMessage message sender).ret = false ∧
    (p.processMessage message sender).post = p ∧
    (p.processMessage message sender).post.stored = p.stored := by
  rw [p.processMessage_of_empty message sender h]
  exact ⟨rfl, rfl, rfl⟩

theorem processMessage_failure_keeps_witness :
    (({ database := { data := ["Hello World! from Agent1"] } } : MessageProcessor).processMessage
        "" "Agent2").ret = false ∧
    (({ database := { data := ["Hello World! from Agent1"] } } : MessageProcessor).processMessage
        "" "Agent2").post = { database := { data := ["Hello World! from Agent1"] } } ∧
    (({ database := { data := ["Hello World! from Agent1"] } } : MessageProcessor).processMessage
        "" "Agent2").post.stored = ["Hello World! from Agent1"] :=
  processMessage_failure_keeps { database := { data := ["Hello World! from Agent1"] } }
    "" "Agent2" (Or.inl rfl)

/-- C3: `Validator::isValid(content, sender)` is `true` exactly when both
strings are non-empty; the answer does not depend on the validator object, and
nothing is trimmed: a whitespace-only string counts as non-empty. -/
theorem isValid_iff_both_nonempty (v w : Validator) (message sender : String) :
    (v.isValid message sender = true ↔ message ≠ "" ∧ sender ≠ "") ∧
    v.isValid message sender = w.isValid message sender ∧
    v.isValid " " "  " = true :=
  ⟨v.isValid_eq_true_iff message sender, rfl, rfl⟩

/-- C7: `showAll` is read-only and idempotent: for every processor state it
leaves the processor, hence the stored sequence, unchanged, and a second
`showAll` right after the first writes the same output as the first. -/
theorem showAll_readonly_idempotent (p : MessageProcessor) :
    p.showAll.post = p ∧
    p.showAll.post.stored = p.stored ∧
    p.showAll.post.showAll.out = p.showAll.out :=
  ⟨rfl, rfl, rfl⟩

/-- C9, as stated, fails: on a processor that already stores `Hi from Bob`
(for instance after one earlier `processMessage("Hi", "Bob")`), the successful
call `processMessage("Hi", "Bob")` leaves the record twice in the stored
sequence, not exactly once. -/
theorem record_unique_counterexample :
    ("Hi" : String) ≠ "" ∧ ("Bob" : String) ≠ "" ∧
    (({} : MessageProcessor).processMessage "Hi" "Bob").post =
      { database := { data := ["Hi from Bob"] } } ∧
    (({ database := { data := ["Hi from Bob"] } } : MessageProcessor).processMessage
        "Hi" "Bob").ret = true ∧
    List.count ("Hi" ++ " from " ++ "Bob")
      (({ database := { data := ["Hi from Bob"] } } : MessageProcessor).processMessage
        "Hi" "Bob").post.stored = 2 ∧
    ¬ List.count ("Hi" ++ " from " ++ "Bob")
      (({ database := { data := ["Hi from Bob"] } } : MessageProcessor).processMessage
        "Hi" "Bob").post.stored = 1 := by
  decide

/-- C9, amended: for every processor state and every non-empty content and
non-empty sender, `processMessage` returns `true` and the record
`content ++ " from " ++ sender` occurs in the stored sequence exactly one more
time than before the call; it therefore occurs exactly once precisely when it
was not stored before. -/
theorem processMessage_record_count (p : MessageProcessor) (message sender : String)
    (hm : message ≠ "") (hs : sender ≠ "") :
    (p.processMessage message sender).ret = true ∧
    List.count (message ++ " from " ++ sender) (p.processMessage message sender).post.stored =
      List.count (message ++ " from " ++ sender) p.stored + 1 ∧
    (List.count (message ++ " from " ++ sender) (p.processMessage message sender).post.stored = 1
      ↔ message ++ " from " ++ sender ∉ p.stored) := by
  have hc : List.count (message ++ " from " ++ sender)
      (p.processMessage message sender).post.stored =
      List.count (message ++ " from " ++ sender) p.stored + 1 := by
    rw [p.processMessage_of_nonempty message sender hm hs]
    show List.count _ (p.stored ++ [message ++ " from " ++ sender]) = _
    rw [List.count_append, List.count_singleton_self]
  refine ⟨?_, hc, ?_⟩
  · rw [p.processMessage_of_nonempty message sender hm hs]
  · rw [hc, Nat.add_left_eq_self, List.count_eq_zero]

theorem processMessage_record_count_witness :
    (({ database := { data := ["Hi from Bob"] } } : MessageProcessor).processMessage
        "Hello World!" "Agent1").ret = true ∧
    List.count ("Hello World!" ++ " from " ++ "Agent1")
      (({ database := { data := ["Hi from Bob"] } } : MessageProcessor).processMessage
        "Hello World!" "Agent1").post.stored =
      List.count ("Hello World!" ++ " from " ++ "Agent1")
        ({ database := { data := ["Hi from Bob"] } } : MessageProcessor).stored + 1 ∧
    (List.count ("Hello World!" ++ " from " ++ "Agent1")
      (({ database := { data := ["Hi from Bob"] } } : MessageProcessor).processMessage
        "Hello World!" "Agent1").post.stored = 1
      ↔ "Hello World!" ++ " from " ++ "Agent1" ∉
        ({ database := { data := ["Hi from Bob"] } } : MessageProcessor).stored) :=
  processMessage_record_count { database := { data := ["Hi from Bob"] } }
    "Hello World!" "Agent1" (by decide) (by decide)

theorem MessageProcessor.step_stored (p : MessageProcessor) (c : Call) :
    (p.step c).2.stored = p.stored ++ successRecords [c] [(p.step c).1] := by
  cases c with
  | showAll => simp [MessageProcessor.step, successRecords, MessageProcessor.showAll]
  | processMessage message sender =>
    by_cases h : p.validator.isValid message sender = true
    · simp [MessageProcessor.step, successRecords, p.processMessage_valid message sender h,
        MessageProcessor.stored, Database.store, Database.getAll, record]
    · rw [Bool.not_eq_true] at h
      simp [MessageProcessor.step, successRecords, p.processMessage_invalid message sender h]

theorem successRecords_cons (c : Call) (cs : List Call) (o : Observation)
    (os : List Observation) :
    successRecords (c :: cs) (o :: os) = successRecords [c] [o] ++ successRecords cs os := by
  cases c with
  | showAll => simp [successRecords]
  | processMessage message sender =>
    by_cases h : o.ret = some true <;> simp [successRecords, h]

theorem MessageProcessor.run_stored (p : MessageProcessor) (calls : List Call) :
    (p.run calls).2.stored = p.stored ++ successRecords calls (p.run calls).1 := by
  induction calls generalizing p with
  | nil => simp [MessageProcessor.run, successRecords]
  | cons c cs ih =>
    simp only [MessageProcessor.run]
    rw [ih, p.step_stored c, List.append_assoc, ← successRecords_cons]

end SRP.After

/-! ## Message processing: the two variants compared -/

namespace SRP

open SRP.After (Call Observation)

theorem Before.MessageProcessor.showAllLoop_eq (d : After.Display) (items : List String) :
    Before.MessageProcessor.showAllLoop items = d.showAll items := by
  induction items with
  | nil => rfl
  | cons item items ih => simp [Before.MessageProcessor.showAllLoop, After.Display.showAll, ih]

theorem processMessage_agree (b : Before.MessageProcessor) (a : After.MessageProcessor)
    (h : b.database = a.stored) (message sender : String) :
    (b.processMessage message sender).ret = (a.processMessage message sender).ret ∧
    (b.processMessage message sender).out = (a.processMessage message sender).out ∧
    (b.processMessage message sender).post.database =
      (a.processMessage message sender).post.stored := by
  cases h1 : CxxString.empty message <;> cases h2 : CxxString.empty sender <;>
    simp [Before.MessageProcessor.processMessage, After.MessageProcessor.processMessage,
      After.Validator.isValid, h1, h2, h, After.Logger.log, After.Display.showMessage,
      After.Display.showSuccess, After.Display.showError, After.MessageProcessor.stored,
      After.Database.store, After.Database.getAll, CxxString.log_processing]

theorem showAll_agree (b : Before.MessageProcessor) (a : After.MessageProcessor)
    (h : b.database = a.stored) :
    b.showAll.out = a.showAll.out ∧ b.showAll.post.database = a.showAll.post.stored := by
  refine ⟨?_, h⟩
  simp only [Before.MessageProcessor.showAll, After.MessageProcessor.showAll, After.Logger.log,
    Before.MessageProcessor.showAllLoop_eq a.display, h, After.MessageProcessor.stored]
  rfl

theorem step_agree (b : Before.MessageProcessor) (a : After.MessageProcessor)
    (h : b.database = a.stored) (c : Call) :
    (b.step c).1 = (a.step c).1 ∧ (b.step c).2.database = (a.step c).2.stored := by
  cases c with
  | processMessage message sender =>
    obtain ⟨hr, ho, hp⟩ := processMessage_agree b a h message sender
    simp only [Before.MessageProcessor.step, After.MessageProcessor.step, hr, ho, hp, and_self]
  | showAll =>
    obtain ⟨ho, hp⟩ := showAll_agree b a h
    simp only [Before.MessageProcessor.step, After.MessageProcessor.step, ho, hp, and_self]

theorem run_agree (b : Before.MessageProcessor) (a : After.MessageProcessor)
    (h : b.database = a.stored) (calls : List Call) :
    (b.run calls).1 = (a.run calls).1 ∧ (b.run calls).2.database = (a.run calls).2.stored := by
  induction calls generalizing b a with
  | nil => exact ⟨rfl, h⟩
  | cons c cs ih =>
    obtain ⟨h1, h2⟩ := step_agree b a h c
    obtain ⟨h3, h4⟩ := ih (b.step c).2 (a.step c).2 h2
    simp only [Before.MessageProcessor.run, After.MessageProcessor.run, h1, h3, h4, and_self]

/-- C8: the god-class processor of `before.cpp` and the orchestrator of
`after.cpp` are observationally equal. Started from equal stored sequences,
`processMessage` returns the same boolean, writes the same lines in the same
order and leaves equal stored sequences in both, for every content and sender;
`showAll` writes the same lines and leaves equal stored sequences in both; and
every sequence of `processMessage` and `showAll` calls yields the same
transcript and equal stored sequences. -/
theorem before_after_equivalent (b : Before.MessageProcessor) (a : After.MessageProcessor)
    (h : b.database = a.stored) :
    (∀ message sender : String,
      (b.processMessage message sender).ret = (a.processMessage message sender).ret ∧
      (b.processMessage message sender).out = (a.processMessage message sender).out ∧
      (b.processMessage message sender).post.database =
        (a.processMessage message sender).post.stored) ∧
    (b.showAll.out = a.showAll.out ∧ b.showAll.post.database = a.showAll.post.stored) ∧
    (∀ calls : List Call,
      (b.run calls).1 = (a.run calls).1 ∧
      (b.run calls).2.database = (a.run calls).2.stored) :=
  ⟨processMessage_agree b a h, showAll_agree b a h, run_agree b a h⟩

theorem before_after_equivalent_witness :
    (({} : Before.MessageProcessor).run
        [.processMessage "Hello World!" "Agent1", .processMessage "" "Agent2",
         .processMessage "Hi there!" "", .showAll]).1 =
      (({} : After.MessageProcessor).run
        [.processMessage "Hello World!" "Agent1", .processMessage "" "Agent2",
         .processMessage "Hi there!" "", .showAll]).1 ∧
    (({} : Before.MessageProcessor).run
        [.processMessage "Hello World!" "Agent1", .processMessage "" "Agent2",
         .processMessage "Hi there!" "", .showAll]).2.database =
      (({} : After.MessageProcessor).run
        [.processMessage "Hello World!" "Agent1", .processMessage "" "Agent2",
         .processMessage "Hi there!" "", .showAll]).2.stored :=
  (before_after_equivalent {} {} rfl).2.2
    [.processMessage "Hello World!" "Agent1", .processMessage "" "Agent2",
     .processMessage "Hi there!" "", .showAll]

end SRP

/-! ## Notification dispatch, polymorphic variant: contracts -/

namespace OCP.After

theorem NotificationManager.addChannels_channels (m : NotificationManager)
    (cs : List INotificationChannel) :
    (m.addChannels cs).channels = m.channels ++ cs := by
  induction cs generalizing m with
  | nil => simp [NotificationManager.addChannels]
  | cons c cs ih =>
    simp [NotificationManager.addChannels, ih, NotificationManager.addChannel]

theorem NotificationManager.notifyLoop_out (message : String) (cs : List INotificationChannel) :
    (NotificationManager.notifyLoop message cs).1 =
      (cs.map fun c => (c.send message).out).flatten := by
  induction cs with
  | nil => rfl
  | cons c cs ih => simp [NotificationManager.notifyLoop, ih]

theorem NotificationManager.notifyLoop_post (message : String) (cs : List INotificationChannel) :
    (NotificationManager.notifyLoop message cs).2 = cs.map fun c => (c.send message).post := by
  induction cs with
  | nil => rfl
  | cons c cs ih => simp [NotificationManager.notifyLoop, ih]

/-- C4: for every list of channels registered with `addChannel` in the order
`[c1, ..., cn]` on a new manager and every message `m`, the output of
`notifyAll(m)` is the concatenation, in registration order, of the outputs of
`ci.send(m)`, and every registered channel is afterwards the object that
exactly one `send(m)` leaves; on a manager without channels the output is empty. -/
theorem notifyAll_sends_each_once_in_order (cs : List INotificationChannel) (message : String) :
    ((({} : NotificationManager).addChannels cs).notifyAll message).out =
      (cs.map fun c => (c.send message).out).flatten ∧
    ((({} : NotificationManager).addChannels cs).notifyAll message).post.channels =
      cs.map (fun c => (c.send message).post) ∧
    (({} : NotificationManager).notifyAll message).out = [] := by
  have hc : (({} : NotificationManager).addChannels cs).channels = cs := by
    rw [NotificationManager.addChannels_channels]
    rfl
  refine ⟨?_, ?_, rfl⟩
  · simp only [NotificationManager.notifyAll, hc, NotificationManager.notifyLoop_out]
  · simp only [NotificationManager.notifyAll, hc, NotificationManager.notifyLoop_post]

/-- C5: for every manager (whatever channels it has registered so far), every
further channel `c` of any implementation and every message `m`, the output of
`notifyAll(m)` after additionally registering `c` is the output of
`notifyAll(m)` without `c` followed by the output of `c.send(m)`; the lines of
the previously registered channels, and the objects they become, are unchanged. -/
theorem notifyAll_after_extension (mgr : NotificationManager) (c : INotificationChannel)
    (message : String) :
    ((mgr.addChannel c).notifyAll message).out =
      (mgr.notifyAll message).out ++ (c.send message).out ∧
    ((mgr.addChannel c).notifyAll message).post.channels =
      (mgr.notifyAll message).post.channels ++ [(c.send message).post] := by
  simp [NotificationManager.notifyAll, NotificationManager.addChannel,
    NotificationManager.notifyLoop_out, NotificationManager.notifyLoop_post]

end OCP.After

/-! ## Message processing, refactored variant: behaviour over call sequences -/

namespace SRP.After

theorem MessageProcessor.step_successCount (p : MessageProcessor) (c : Call) :
    (successRecords [c] [(p.step c).1]).length = successCount [(p.step c).1] := by
  cases c with
  | showAll => simp [MessageProcessor.step, successRecords, successCount]
  | processMessage message sender =>
    by_cases h : (p.step (Call.processMessage message sender)).1.ret = some true
    · simp [successRecords, successCount, h]
    · simp [successRecords, successCount, h]

theorem MessageProcessor.run_successCount (p : MessageProcessor) (calls : List Call) :
    (successRecords calls (p.run calls).1).length = successCount (p.run calls).1 := by
  induction calls generalizing p with
  | nil => rfl
  | cons c cs ih =>
    have h1 := p.step_successCount c
    have h2 := ih (p.step c).2
    simp only [MessageProcessor.run]
    rw [successRecords_cons, List.length_append, h1, h2]
    simp only [successCount, List.countP_cons, List.countP_nil]
    omega

/-- C12: the stored sequence is append-only. For every processor state and
every finite sequence of `processMessage` and `showAll` calls, the stored
sequence before the calls is a prefix of the stored sequence after them (no
record is deleted, modified or reordered), and its length has grown by exactly
the number of calls that returned `true`. -/
theorem stored_append_only (p : MessageProcessor) (calls : List Call) :
    p.stored <+: (p.run calls).2.stored ∧
    (p.run calls).2.stored.length = p.stored.length + successCount (p.run calls).1 := by
  have hs := p.run_stored calls
  refine ⟨?_, ?_⟩
  · rw [hs]
    exact List.prefix_append _ _
  · rw [hs, List.length_append, p.run_successCount calls]

/-- C14: the stored record format is not injective. The two distinct valid
pairs `("a from b", "c")` and `("a", "b from c")` give the same record
`a from b from c`: both calls succeed and leave the same stored sequence, on
every processor of `after.cpp` and of `before.cpp`, so a stored record does
not determine the content and sender it came from. -/
theorem record_not_injective :
    ∃ content1 sender1 content2 sender2 : String,
      (content1, sender1) ≠ (content2, sender2) ∧
      content1 ≠ "" ∧ sender1 ≠ "" ∧ content2 ≠ "" ∧ sender2 ≠ "" ∧
      content1 ++ " from " ++ sender1 = content2 ++ " from " ++ sender2 ∧
      (∀ p : MessageProcessor,
        (p.processMessage content1 sender1).ret = true ∧
        (p.processMessage content2 sender2).ret = true ∧
        (p.processMessage content1 sender1).post.stored =
          (p.processMessage content2 sender2).post.stored) ∧
      (∀ b : Before.MessageProcessor,
        (b.processMessage content1 sender1).ret = true ∧
        (b.processMessage content2 sender2).ret = true ∧
        (b.processMessage content1 sender1).post.database =
          (b.processMessage content2 sender2).post.database) :=
  ⟨"a from b", "c", "a", "b from c", by decide, by decide, by decide, by decide, by decide,
    by decide, fun _ => ⟨rfl, rfl, rfl⟩, fun _ => ⟨rfl, rfl, rfl⟩⟩

end SRP.After

/-! ## Notification dispatch: the branching variant and the two variants compared -/

namespace OCP

/-- C11: for every message `m`, `notify(m, "email")`, `notify(m, "sms")` and
`notify(m, "voice")` of `before.cpp` write exactly what `EmailChannel::send(m)`,
`SMSChannel::send(m)` and `VoiceChannel::send(m)` of `after.cpp` write; hence
the three `notify` calls in that order write the same output as `notifyAll(m)`
on a manager on which Email, SMS and Voice channels were registered in that order. -/
theorem notify_matches_channels (mgr : Before.NotificationManager) (message : String) :
    mgr.notify message "email" = (After.EmailChannel.send message).out ∧
    mgr.notify message "sms" = (After.SMSChannel.send message).out ∧
    mgr.notify message "voice" = (After.VoiceChannel.send message).out ∧
    mgr.notify message "email" ++ mgr.notify message "sms" ++ mgr.notify message "voice" =
      (((({} : After.NotificationManager).addChannel After.EmailChannel).addChannel
        After.SMSChannel).addChannel After.VoiceChannel |>.notifyAll message).out :=
  ⟨rfl, rfl, rfl, rfl⟩

end OCP

namespace OCP.After

end OCP.After

namespace OCP.Before

end OCP.Before

end DesignPatterns
